import Mathlib

/-!
Verification of the callisto engine layer (`callisto_engines/src/lib.rs` and
`callisto/src/engines/mod.rs`): a shallow embedding of the table registry,
the statement rewriter (`load_tables`), the name derivation
(`derive_table_from_fs_name`) and the per-statement execute loops of the
three engine adapters (Polars, DuckDB, DataFusion), together with theorems
about naming, rewriting, registration and error behaviour.

External collaborators (the SQL parser, the filesystem, the three engines'
query execution) are modelled as oracle parameters; everything the
repository's own code computes is embedded as executable Lean functions.
-/

namespace Callisto

/-! ## String model: Rust `str::replace` and `str::split` over `List Char`

Rust's `str::replace(pat, rep)` scans left to right, replacing each
non-overlapping occurrence of `pat` by `rep`.  We embed it over `List Char`
with an explicit fuel argument equal to the length of the scanned list
(each step consumes at least one character, so this fuel always suffices);
this keeps the definition structurally recursive and fully evaluable. -/

/-- One left-to-right scan of Rust `str::replace` with a nonempty pattern:
at each position, if `pat` is a prefix, emit `rep` and skip past the match,
otherwise keep the character.  `fuel` bounds the recursion depth. -/
def replaceScan (pat rep : List Char) : Nat → List Char → List Char
  | _, [] => []
  | 0, s => s
  | fuel + 1, c :: rest =>
    if pat.isPrefixOf (c :: rest) then
      rep ++ replaceScan pat rep fuel (rest.drop (pat.length - 1))
    else
      c :: replaceScan pat rep fuel rest

/-- Model of Rust `str::replace` on character lists.  For the empty pattern
Rust inserts `rep` at every character boundary (`"ab".replace("", "x") =
"xaxbx"`); for a nonempty pattern it is the left-to-right scan. -/
def rustReplace (pat rep s : List Char) : List Char :=
  if pat = [] then rep ++ s.flatMap (fun c => c :: rep)
  else replaceScan pat rep s.length s

/-- Model of Rust `str::replace` on `String`, argument order as in the
source: `s.replace(pat, rep)`. -/
def rsReplace (s pat rep : String) : String :=
  ⟨rustReplace pat.data rep.data s.data⟩

/-- Model of Rust `str::split(sep)` collected to a list: splitting never
yields an empty list (the empty string splits to `[[]]`), matching Rust,
whose `split` iterator always yields at least one item. -/
def splitChar (sep : Char) : List Char → List (List Char)
  | [] => [[]]
  | c :: rest =>
    match splitChar sep rest with
    | [] => [[]]
    | h :: t => if c = sep then [] :: h :: t else (c :: h) :: t

/-- `splitChar` never returns the empty list, hence Rust's
`split(sep).last().unwrap()` never panics. -/
theorem splitChar_ne_nil (sep : Char) (s : List Char) : splitChar sep s ≠ [] := by
  cases s with
  | nil => simp [splitChar]
  | cons c rest =>
    simp only [splitChar]
    cases h : splitChar sep rest with
    | nil => simp
    | cons h t =>
      by_cases hc : c = sep <;> simp [hc]

/-- Rust `fs_name.split('/').last().unwrap()`: the last component of the
split (total, since the split is never empty; the default is irrelevant). -/
def lastSplitComponent (sep : Char) (s : List Char) : List Char :=
  (splitChar sep s).getLastD []

/-- Embedding of `derive_table_from_fs_name` (identical in
`callisto_engines/src/lib.rs:374` and `callisto/src/engines/mod.rs:249`):
```
format!("tbl_{}", fs_name.split('/').last().unwrap()
    .replace(".", "_").replace("-", "_").replace("*", "_"))
``` -/
def derive_table_from_fs_name (fs_name : String) : String :=
  "tbl_" ++ String.mk
    (rustReplace ['*'] ['_']
      (rustReplace ['-'] ['_']
        (rustReplace ['.'] ['_']
          (lastSplitComponent '/' fs_name.data))))

/-- The per-character effect of the three chained `replace` calls of
`derive_table_from_fs_name`: each of `.`, `-`, `*` becomes `_`, every
other character is kept. -/
def deriveChar (c : Char) : Char :=
  if c = '.' ∨ c = '-' ∨ c = '*' then '_' else c

/-! ## AST model

`sqlparser::ast::Statement` is a tree of clauses; `visit_relations_mut`
visits every relation reference (`ObjectName`, a nonempty vector of
`Ident` components) in a fixed traversal order, mutating each in place.
We embed a statement as its visit-ordered sequence of atoms: relation
references interleaved with the statement's other (never-touched) text. -/

/-- `sqlparser::ast::Ident`: one identifier component; only its `value`
string is touched by the rewriter. -/
structure Ident where
  value : String
  deriving DecidableEq, Repr

/-- `sqlparser::ast::ObjectName`: a possibly compound (dotted) relation
name.  The parser always produces at least one component, so we store
part 0 (`table.0[0]` in the source) separately from the remaining parts. -/
structure ObjectName where
  part0 : Ident
  restParts : List Ident
  deriving DecidableEq, Repr

/-- One node of a statement in visit order: either a relation reference
(visited by `visit_relations_mut`) or any other statement content. -/
inductive SqlAtom where
  | text : String → SqlAtom
  | rel : ObjectName → SqlAtom
  deriving DecidableEq, Repr

/-- A parsed SQL statement, as the visit-ordered sequence of its atoms. -/
abbrev Statement := List SqlAtom

/-! ## Table registry

`fs_name_to_table_name : BTreeMap<String, String>`.  We model the map as
an association list where `insert` prepends, so lookup sees the latest
binding, matching `BTreeMap::insert`/`get` observationally. -/

abbrev Registry := List (String × String)

/-- `BTreeMap::get`: the value bound to `k`, if any. -/
def Registry.get (r : Registry) (k : String) : Option String :=
  (r.find? (fun p => p.1 = k)).map (fun p => p.2)

/-- `BTreeMap::insert k v` (lookup-observable behaviour). -/
def Registry.insert (r : Registry) (k v : String) : Registry :=
  (k, v) :: r

/-! ## Statement rewriter (the `visit_relations_mut` closure)

The closure body, identical in all three engines and both crates
(`callisto_engines/src/lib.rs:59-71` etc.):
```
let symbol_or_file: &str = &table.0[0].value;
let table_name = if let Some(table_name) = self.fs_name_to_table_name.get(symbol_or_file) {
    table_name.to_string()
} else {
    let table_name = derive_table_from_fs_name(symbol_or_file);
    new_tables.push((symbol_or_file.to_string(), table_name.clone()));
    table_name
};
table.0[0].value = table.0[0].value.replace(symbol_or_file, &table_name);
```
The registry is only read during the visit (it is mutated after the walk),
so the closure is a function of the fixed registry plus an accumulator of
`new_tables` pushes. -/

/-- The rewrite of a single relation reference: returns the mutated
`ObjectName` and the `new_tables` entry pushed for it, if any. -/
def rewriteRelation (registry : Registry) (table : ObjectName) :
    ObjectName × Option (String × String) :=
  let symbol_or_file := table.part0.value
  match Registry.get registry symbol_or_file with
  | some table_name =>
    ({ part0 := ⟨rsReplace symbol_or_file symbol_or_file table_name⟩,
       restParts := table.restParts }, none)
  | none =>
    let table_name := derive_table_from_fs_name symbol_or_file
    ({ part0 := ⟨rsReplace symbol_or_file symbol_or_file table_name⟩,
       restParts := table.restParts }, some (symbol_or_file, table_name))

/-- `visit_relations_mut` over a whole statement: rewrites every relation
atom in visit order and collects the `new_tables` vector (note: pushes are
appended even when an earlier atom of the same statement already pushed
the same identifier, because the registry is not updated during the walk). -/
def visit_relations (registry : Registry) : Statement → Statement × List (String × String)
  | [] => ([], [])
  | SqlAtom.text s :: rest =>
    let (stmt, tables) := visit_relations registry rest
    (SqlAtom.text s :: stmt, tables)
  | SqlAtom.rel table :: rest =>
    let (table', pushed) := rewriteRelation registry table
    let (stmt, tables) := visit_relations registry rest
    (SqlAtom.rel table' :: stmt, pushed.toList ++ tables)

/-- The action of the visitor closure on one atom. -/
def rewriteAtom (registry : Registry) : SqlAtom → SqlAtom
  | SqlAtom.text s => SqlAtom.text s
  | SqlAtom.rel t => SqlAtom.rel (rewriteRelation registry t).1

/-! ## Result representation

The common result abstraction: a schema plus record batches.  Schema and
batch contents belong to the external arrow library; we keep them as
abstract finite data sufficient to state the claims. -/

/-- An arrow schema (field names; the datatypes are external detail). -/
abbrev Schema := List String

/-- An arrow `RecordBatch`: its schema plus an abstract payload size. -/
structure RecordBatch where
  schema : Schema
  rows : Nat
  deriving DecidableEq, Repr

/-! ## Polars engine (`polars_engine::PolarsImpl`) -/

/-- `PolarsImpl`: the registry plus the `SQLContext`.  The context is
modelled as the sequence of `context.register(&table_name, frame)` calls
issued to it, as `(table_name, fs_name)` pairs — `frame` is the lazy scan
of `fs_name` — so that registrations with the underlying engine can be
counted and their order observed. -/
structure PolarsImpl where
  fs_name_to_table_name : Registry
  context : List (String × String)
  deriving DecidableEq, Repr

/-- The initial `PolarsImpl::default()`. -/
def PolarsImpl.default : PolarsImpl := ⟨[], []⟩

/-- The registration loop of `PolarsImpl::load_tables`
(`callisto_engines/src/lib.rs:73-86`): for each `new_tables` entry, try
`LazyFrame::scan_parquet` (external filesystem, modelled by the oracle
`scanOk`); on success insert the mapping and register the frame with the
context; on failure print a warning (collected in the returned list) and
continue. -/
def polarsRegisterLoop (scanOk : String → Bool) :
    PolarsImpl → List (String × String) → PolarsImpl × List String
  | st, [] => (st, [])
  | st, (fs_name, table_name) :: rest =>
    if scanOk fs_name then
      let st' : PolarsImpl :=
        { fs_name_to_table_name := Registry.insert st.fs_name_to_table_name fs_name table_name,
          context := st.context ++ [(table_name, fs_name)] }
      polarsRegisterLoop scanOk st' rest
    else
      let (st', warnings) := polarsRegisterLoop scanOk st rest
      (st', ("Warning -- loading referenced parquet path (" ++ fs_name ++ ") failed") :: warnings)

/-- `PolarsImpl::load_tables` (`callisto_engines/src/lib.rs:56-88`):
rewrite the statement, then run the registration loop.  Always returns
`Ok(rewritten)`; warnings are the printed messages. -/
def PolarsImpl.load_tables (scanOk : String → Bool) (st : PolarsImpl)
    (query : Statement) : Statement × PolarsImpl × List String :=
  let (rewritten, new_tables) := visit_relations st.fs_name_to_table_name query
  let (st', warnings) := polarsRegisterLoop scanOk st new_tables
  (rewritten, st', warnings)

/-! ## DuckDB engine (`duckdb_engine::DuckDbImpl`) -/

/-- `DuckDbImpl`: the registry plus the DuckDB connection, modelled as the
sequence of successfully executed
`CREATE TABLE {table_name} AS SELECT * FROM READ_PARQUET({fs_name}, ...)`
statements, recorded as `(table_name, fs_name)` pairs. -/
structure DuckDbImpl where
  fs_name_to_table_name : Registry
  connection : List (String × String)
  deriving DecidableEq, Repr

/-- The initial `DuckDbImpl::default()` (fresh in-memory connection). -/
def DuckDbImpl.default : DuckDbImpl := ⟨[], []⟩

/-- The registration loop of `DuckDbImpl::load_tables`
(`callisto_engines/src/lib.rs:233-243`): for each `new_tables` entry,
`connection.execute(CREATE TABLE ...)?` — the `?` makes any failure abort
the whole `load_tables` (successes already committed persist).  The oracle
`ddlOk` decides, given the current connection state and the
`(table_name, fs_name)` pair, whether the DDL statement succeeds. -/
def duckRegisterLoop (ddlOk : List (String × String) → String × String → Bool) :
    DuckDbImpl → List (String × String) → DuckDbImpl × Option String
  | st, [] => (st, none)
  | st, (fs_name, table_name) :: rest =>
    if ddlOk st.connection (table_name, fs_name) then
      let st' : DuckDbImpl :=
        { fs_name_to_table_name := Registry.insert st.fs_name_to_table_name fs_name table_name,
          connection := st.connection ++ [(table_name, fs_name)] }
      duckRegisterLoop ddlOk st' rest
    else
      (st, some ("CREATE TABLE for " ++ fs_name ++ " failed"))

/-- `DuckDbImpl::load_tables` (`callisto_engines/src/lib.rs:216-245`):
rewrite the statement, then run the fallible registration loop; a DDL
failure propagates as an error (`Err`), unlike the Polars/DataFusion
warning policy. -/
def DuckDbImpl.load_tables (ddlOk : List (String × String) → String × String → Bool)
    (st : DuckDbImpl) (query : Statement) : Except String Statement × DuckDbImpl :=
  let (rewritten, new_tables) := visit_relations st.fs_name_to_table_name query
  match duckRegisterLoop ddlOk st new_tables with
  | (st', none) => (Except.ok rewritten, st')
  | (st', some e) => (Except.error e, st')

/-! ## DataFusion engine (`datafusion_engine::DataFusionImpl`) -/

/-- `DataFusionImpl`: the registry plus the `SessionContext`, modelled as
the sequence of `context.register_parquet(&table_name, &fs_name, ...)`
calls that returned `Ok`. -/
structure DataFusionImpl where
  fs_name_to_table_name : Registry
  context : List (String × String)
  deriving DecidableEq, Repr

/-- The initial `DataFusionImpl::default()`. -/
def DataFusionImpl.default : DataFusionImpl := ⟨[], []⟩

/-- The registration loop of `DataFusionImpl::load_tables`
(`callisto_engines/src/lib.rs:323-338`): `register_parquet` per entry
(success decided by the oracle `regOk`); on success commit the mapping,
on failure print a warning and continue. -/
def dfRegisterLoop (regOk : String → String → Bool) :
    DataFusionImpl → List (String × String) → DataFusionImpl × List String
  | st, [] => (st, [])
  | st, (fs_name, table_name) :: rest =>
    if regOk table_name fs_name then
      let st' : DataFusionImpl :=
        { fs_name_to_table_name := Registry.insert st.fs_name_to_table_name fs_name table_name,
          context := st.context ++ [(table_name, fs_name)] }
      dfRegisterLoop regOk st' rest
    else
      let (st', warnings) := dfRegisterLoop regOk st rest
      (st', ("Warning -- loading referenced parquet path (" ++ fs_name ++ ") failed") :: warnings)

/-- `DataFusionImpl::load_tables` (`callisto_engines/src/lib.rs:306-340`):
rewrite the statement, then run the registration loop; never errors. -/
def DataFusionImpl.load_tables (regOk : String → String → Bool) (st : DataFusionImpl)
    (query : Statement) : Statement × DataFusionImpl × List String :=
  let (rewritten, new_tables) := visit_relations st.fs_name_to_table_name query
  let (st', warnings) := dfRegisterLoop regOk st new_tables
  (rewritten, st', warnings)

/-! ## Execute: per-statement steps and the shared loop

All three `execute` implementations share one shape: parse the query into
a statement list (`parser.try_with_sql(query)?.parse_statements()?`), then
for each statement in order run a per-statement step (rewrite + register +
engine execution + stream normalization) with `?` aborting the remaining
statements, pushing `(statement, stream)` — the ORIGINAL statement — on
success.  We factor that shape into `executeLoop`/`engineExecute` and give
each engine its concrete step. -/

/-- A materialized Polars `DataFrame` as the Polars execute path sees it:
its polars-native arrow schema (`df.schema().to_arrow(false)`, abstracted
to field names) and the record batches that the IPC bridge will carry. -/
structure DataFrame where
  arrowSchema : List String
  batches : List RecordBatch
  deriving DecidableEq, Repr

/-- `StreamFromPolars` (`callisto_engines/src/lib.rs:159-173`): the stream
wrapper holding the eagerly computed schema next to the batch stream; its
`schema()` accessor returns the stored field (`self.schema.clone()`),
independent of the stream component. -/
structure StreamFromPolars where
  stream : List RecordBatch
  schema : Schema
  deriving DecidableEq, Repr

/-- The per-statement body of `PolarsImpl::execute`
(`callisto_engines/src/lib.rs:107-153`): `load_tables`, then
`context.execute(&transformed_stmt.to_string())` and `collect()` (the
external engine, modelled by the oracle `runSql` over the context state
and the rewritten statement), then the eager schema conversion
`convert_schema(df.schema().to_arrow(false))?` (oracle `convert_schema`),
then construction of `StreamFromPolars` around the bridged batches. -/
def polarsStep (scanOk : String → Bool)
    (runSql : List (String × String) → Statement → Except String DataFrame)
    (convert_schema : List String → Except String Schema)
    (st : PolarsImpl) (statement : Statement) :
    PolarsImpl × Except String StreamFromPolars :=
  let (transformed_stmt, st', _warnings) := st.load_tables scanOk statement
  match runSql st'.context transformed_stmt with
  | Except.error e => (st', Except.error e)
  | Except.ok df =>
    match convert_schema df.arrowSchema with
    | Except.error e => (st', Except.error e)
    | Except.ok schema => (st', Except.ok { stream := df.batches, schema := schema })

/-- A DuckDB statement failure: an engine error surfaced through
`anyhow`/`?`, or the Rust panic from the out-of-bounds `res[0]` index. -/
inductive DuckFailure where
  | err : String → DuckFailure
  | panicIndexOutOfBounds : DuckFailure
  deriving DecidableEq, Repr

/-- `datafusion::physical_plan::memory::MemoryStream` as constructed by
`MemoryStream::try_new(res, schema, None)`: the collected batches replayed
under the given schema. -/
structure MemoryStream where
  batches : List RecordBatch
  schema : Schema
  deriving DecidableEq, Repr

/-- The per-statement body of `DuckDbImpl::execute`
(`callisto_engines/src/lib.rs:263-286`): `load_tables` (fallible here),
then `prepare`/`query_arrow`/`collect` (oracle `runQuery` over the
connection state and the rewritten statement), then
`let schema = res[0].schema().clone()` — which panics when `res` is
empty — and `MemoryStream::try_new(res, schema, None)`. -/
def duckStep (ddlOk : List (String × String) → String × String → Bool)
    (runQuery : List (String × String) → Statement → Except String (List RecordBatch))
    (st : DuckDbImpl) (statement : Statement) :
    DuckDbImpl × Except DuckFailure MemoryStream :=
  match st.load_tables ddlOk statement with
  | (Except.error e, st') => (st', Except.error (DuckFailure.err e))
  | (Except.ok transformed_stmt, st') =>
    match runQuery st'.connection transformed_stmt with
    | Except.error e => (st', Except.error (DuckFailure.err e))
    | Except.ok res =>
      match res with
      | [] => (st', Except.error DuckFailure.panicIndexOutOfBounds)
      | b :: _ => (st', Except.ok { batches := res, schema := b.schema })

/-- DataFusion's native `SendableRecordBatchStream` (already
stream-shaped; the adapter passes it through unchanged). -/
structure DFStream where
  schema : Schema
  batches : List RecordBatch
  deriving DecidableEq, Repr

/-- The per-statement body of `DataFusionImpl::execute`
(`callisto_engines/src/lib.rs:357-367`): `load_tables` (warning policy),
then `context.sql(...).execute_stream()` (oracle `runSql`), yielding the
engine's native stream directly. -/
def dfStep (regOk : String → String → Bool)
    (runSql : List (String × String) → Statement → Except String DFStream)
    (st : DataFusionImpl) (statement : Statement) :
    DataFusionImpl × Except String DFStream :=
  let (transformed_stmt, st', _warnings) := st.load_tables regOk statement
  match runSql st'.context transformed_stmt with
  | Except.error e => (st', Except.error e)
  | Except.ok stream => (st', Except.ok stream)

/-- The shared statement loop of all three `execute` implementations:
process statements in order; a step failure aborts the remaining
statements (`?`), keeping the state mutations already committed; on
success push `(statement, stream)` with the ORIGINAL statement. -/
def executeLoop {σ ε ρ : Type} (step : σ → Statement → σ × Except ε ρ) :
    σ → List Statement → σ × Except ε (List (Statement × ρ))
  | st, [] => (st, Except.ok [])
  | st, statement :: rest =>
    match step st statement with
    | (st', Except.error e) => (st', Except.error e)
    | (st', Except.ok stream) =>
      match executeLoop step st' rest with
      | (st'', Except.error e) => (st'', Except.error e)
      | (st'', Except.ok executions) => (st'', Except.ok ((statement, stream) :: executions))

/-- The shared shape of `execute`: parse the query text (external
`sqlparser`, oracle `parse`); a parse error returns immediately via `?`
before any statement is processed; otherwise run the statement loop. -/
def engineExecute {σ ε ρ : Type} (parse : String → Except ε (List Statement))
    (step : σ → Statement → σ × Except ε ρ) (st : σ) (query : String) :
    σ × Except ε (List (Statement × ρ)) :=
  match parse query with
  | Except.error e => (st, Except.error e)
  | Except.ok ast => executeLoop step st ast

/-- `PolarsImpl::execute` (`callisto_engines/src/lib.rs:93-156`). -/
def PolarsImpl.execute (parse : String → Except String (List Statement))
    (scanOk : String → Bool)
    (runSql : List (String × String) → Statement → Except String DataFrame)
    (convert_schema : List String → Except String Schema)
    (st : PolarsImpl) (query : String) :
    PolarsImpl × Except String (List (Statement × StreamFromPolars)) :=
  engineExecute parse (polarsStep scanOk runSql convert_schema) st query

/-- `DuckDbImpl::execute` (`callisto_engines/src/lib.rs:250-288`). -/
def DuckDbImpl.execute (parse : String → Except DuckFailure (List Statement))
    (ddlOk : List (String × String) → String × String → Bool)
    (runQuery : List (String × String) → Statement → Except String (List RecordBatch))
    (st : DuckDbImpl) (query : String) :
    DuckDbImpl × Except DuckFailure (List (Statement × MemoryStream)) :=
  engineExecute parse (duckStep ddlOk runQuery) st query

/-- `DataFusionImpl::execute` (`callisto_engines/src/lib.rs:345-370`). -/
def DataFusionImpl.execute (parse : String → Except String (List Statement))
    (regOk : String → String → Bool)
    (runSql : List (String × String) → Statement → Except String DFStream)
    (st : DataFusionImpl) (query : String) :
    DataFusionImpl × Except String (List (Statement × DFStream)) :=
  engineExecute parse (dfStep regOk runSql) st query

/-- Modelled from the spec: the invariant vocabulary of §3 — a
syntactically valid unquoted SQL identifier: nonempty, first character a
letter or underscore, remaining characters alphanumeric or underscore. -/
def isValidUnquotedIdent (s : String) : Bool :=
  match s.data with
  | [] => false
  | c :: rest => (c.isAlpha || c = '_') && rest.all (fun c => c.isAlphanum || c = '_')

/-! ## Helper lemmas: the string model -/

theorem replaceScan_nil (pat rep : List Char) (fuel : Nat) :
    replaceScan pat rep fuel [] = [] := by
  cases fuel <;> rfl

/-- A list is a prefix of itself (in the executable `isPrefixOf` sense). -/
theorem isPrefixOf_self (l : List Char) : l.isPrefixOf l = true := by
  induction l with
  | nil => rfl
  | cons c rest ih => simp [List.isPrefixOf, ih]

/-- Replacing the whole string by `rep`: scanning `pat` over itself
matches immediately and consumes everything. -/
theorem replaceScan_self (pat rep : List Char) (h : pat ≠ []) :
    replaceScan pat rep pat.length pat = rep := by
  cases pat with
  | nil => exact absurd rfl h
  | cons c rest =>
    simp only [List.length_cons, replaceScan, isPrefixOf_self, if_true]
    have hdrop : rest.drop (rest.length + 1 - 1) = [] := by
      simp [List.drop_length]
    rw [hdrop, replaceScan_nil, List.append_nil]

/-- Rust `s.replace(s, t) = t` for nonempty `s`. -/
theorem rustReplace_self (pat rep : List Char) (h : pat ≠ []) :
    rustReplace pat rep pat = rep := by
  simp [rustReplace, h, replaceScan_self]

/-- String-level form of `rustReplace_self`. -/
theorem rsReplace_self (s t : String) (h : s ≠ "") : rsReplace s s t = t := by
  have hdata : s.data ≠ [] := by
    intro hd
    apply h
    cases s
    simp_all
  simp only [rsReplace, rustReplace_self _ _ hdata]

/-- A single-character replace is a character map. -/
theorem replaceScan_single (p r : Char) (fuel : Nat) (s : List Char)
    (h : s.length ≤ fuel) :
    replaceScan [p] [r] fuel s = s.map (fun c => if c = p then r else c) := by
  induction fuel generalizing s with
  | zero =>
    have : s = [] := by
      cases s with
      | nil => rfl
      | cons c rest => simp at h
    subst this
    rfl
  | succ fuel ih =>
    cases s with
    | nil => rfl
    | cons c rest =>
      have hpre : ([p].isPrefixOf (c :: rest)) = (p == c) := by
        simp [List.isPrefixOf]
      have hrest : rest.length ≤ fuel := by
        simp at h
        omega
      by_cases hc : p = c
      · subst hc
        simp only [replaceScan, hpre, beq_self_eq_true, if_true, List.length_cons,
          Nat.add_sub_cancel, List.drop_zero, List.map_cons, if_pos rfl]
        simp [ih rest hrest]
      · have : (p == c) = false := by simp [hc]
        simp only [replaceScan, hpre, this, Bool.false_eq_true, if_false, List.map_cons]
        rw [ih rest hrest]
        have : (if c = p then r else c) = c := by
          simp [Ne.symm hc]
        rw [this]

/-- `rustReplace` with single-character pattern and replacement is a map. -/
theorem rustReplace_single (p r : Char) (s : List Char) :
    rustReplace [p] [r] s = s.map (fun c => if c = p then r else c) := by
  simp [rustReplace, replaceScan_single p r s.length s (Nat.le_refl _)]

/-- Every character of every component produced by `splitChar` occurs in
the input and differs from the separator. -/
theorem splitChar_chars (sep : Char) (l : List Char) :
    ∀ comp ∈ splitChar sep l, ∀ c ∈ comp, c ∈ l ∧ c ≠ sep := by
  induction l with
  | nil =>
    intro comp hcomp c hc
    simp [splitChar] at hcomp
    subst hcomp
    simp at hc
  | cons a rest ih =>
    intro comp hcomp c hc
    simp only [splitChar] at hcomp
    cases hsplit : splitChar sep rest with
    | nil => exact absurd hsplit (splitChar_ne_nil sep rest)
    | cons h t =>
      rw [hsplit] at hcomp
      by_cases ha : a = sep
      · simp only [ha, if_pos rfl] at hcomp
        rcases List.mem_cons.mp hcomp with hemp | hmem
        · subst hemp; simp at hc
        · have := ih comp (by rw [hsplit]; exact hmem) c hc
          exact ⟨List.mem_cons_of_mem a this.1, this.2⟩
      · simp only [if_neg ha] at hcomp
        rcases List.mem_cons.mp hcomp with hhead | htail
        · subst hhead
          rcases List.mem_cons.mp hc with hca | hch
          · rw [hca]
            exact ⟨List.mem_cons_self a rest, ha⟩
          · have := ih h (by rw [hsplit]; exact List.mem_cons_self h t) c hch
            exact ⟨List.mem_cons_of_mem a this.1, this.2⟩
        · have := ih comp (by rw [hsplit]; exact List.mem_cons_of_mem h htail) c hc
          exact ⟨List.mem_cons_of_mem a this.1, this.2⟩

/-- The last split component is one of the split components. -/
theorem lastSplitComponent_mem (sep : Char) (s : List Char) :
    lastSplitComponent sep s ∈ splitChar sep s := by
  unfold lastSplitComponent
  have hne := splitChar_ne_nil sep s
  rw [List.getLastD_eq_getLast?, List.getLast?_eq_getLast _ hne]
  exact List.getLast_mem hne

/-! ## Helper lemmas: registry -/

theorem Registry.get_insert_self (r : Registry) (k v : String) :
    Registry.get (Registry.insert r k v) k = some v := by
  simp [Registry.get, Registry.insert, List.find?]

theorem Registry.get_insert_ne (r : Registry) (k v k' : String) (h : k ≠ k') :
    Registry.get (Registry.insert r k v) k' = Registry.get r k' := by
  simp [Registry.get, Registry.insert, List.find?, h]

/-! ## Helper lemmas: the rewriter -/

/-- The rewritten statement is the atom-wise rewrite, in visit order. -/
theorem visit_relations_fst (registry : Registry) (stmt : Statement) :
    (visit_relations registry stmt).1 = stmt.map (rewriteAtom registry) := by
  induction stmt with
  | nil => rfl
  | cons a rest ih =>
    cases a with
    | text s => simp [visit_relations, rewriteAtom, ih]
    | rel t => simp [visit_relations, rewriteAtom, ih]

/-- The rewritten part 0 of a relation reference: the self-replace of its
value by the resolved name (cached if present, otherwise derived). -/
theorem rewriteRelation_part0_value (registry : Registry) (t : ObjectName) :
    ((rewriteRelation registry t).1).part0.value =
      rsReplace t.part0.value t.part0.value
        ((Registry.get registry t.part0.value).getD
          (derive_table_from_fs_name t.part0.value)) := by
  cases hget : Registry.get registry t.part0.value <;>
    simp [rewriteRelation, hget]

/-- For a nonempty identifier the rewritten part 0 is exactly the
resolved name. -/
theorem rewriteRelation_part0_value_nonempty (registry : Registry) (t : ObjectName)
    (h : t.part0.value ≠ "") :
    ((rewriteRelation registry t).1).part0.value =
      (Registry.get registry t.part0.value).getD
        (derive_table_from_fs_name t.part0.value) := by
  rw [rewriteRelation_part0_value, rsReplace_self _ _ h]

/-- The rewrite never touches the components after part 0. -/
theorem rewriteRelation_restParts (registry : Registry) (t : ObjectName) :
    ((rewriteRelation registry t).1).restParts = t.restParts := by
  cases hget : Registry.get registry t.part0.value <;>
    simp [rewriteRelation, hget]

/-- Every `new_tables` entry pushed during a visit is an identifier that
missed the registry, paired with its derived name. -/
theorem visit_relations_new_tables_spec (registry : Registry) (stmt : Statement) :
    ∀ p ∈ (visit_relations registry stmt).2,
      Registry.get registry p.1 = none ∧ p.2 = derive_table_from_fs_name p.1 := by
  induction stmt with
  | nil => intro p hp; simp [visit_relations] at hp
  | cons a rest ih =>
    intro p hp
    cases a with
    | text s =>
      simp only [visit_relations] at hp
      exact ih p hp
    | rel t =>
      simp only [visit_relations] at hp
      cases hget : Registry.get registry t.part0.value with
      | some name =>
        simp only [rewriteRelation, hget, Option.toList, List.nil_append] at hp
        exact ih p hp
      | none =>
        simp only [rewriteRelation, hget, Option.toList, List.singleton_append,
          List.mem_cons] at hp
        rcases hp with hp | hp
        · subst hp; exact ⟨hget, rfl⟩
        · exact ih p hp

/-- A relation reference whose part-0 value misses the registry pushes its
`(identifier, derived name)` pair into `new_tables`. -/
theorem visit_relations_mem_new_tables (registry : Registry) (stmt : Statement)
    (t : ObjectName) (hmem : SqlAtom.rel t ∈ stmt)
    (hmiss : Registry.get registry t.part0.value = none) :
    (t.part0.value, derive_table_from_fs_name t.part0.value) ∈
      (visit_relations registry stmt).2 := by
  induction stmt with
  | nil => simp at hmem
  | cons a rest ih =>
    rcases List.mem_cons.mp hmem with ha | ha
    · subst ha
      simp only [visit_relations]
      simp [rewriteRelation, hmiss]
    · cases a with
      | text s => simpa [visit_relations] using ih ha
      | rel t' =>
        simp only [visit_relations, List.mem_append]
        exact Or.inr (ih ha)

/-! ## Helper lemmas: the Polars registration loop -/

/-- The context after the loop: the old context followed by one
registration event per `new_tables` entry whose scan succeeded. -/
theorem polarsRegisterLoop_context (scanOk : String → Bool) (st : PolarsImpl)
    (l : List (String × String)) :
    (polarsRegisterLoop scanOk st l).1.context =
      st.context ++ (l.filter (fun p => scanOk p.1)).map (fun p => (p.2, p.1)) := by
  induction l generalizing st with
  | nil => simp [polarsRegisterLoop]
  | cons p rest ih =>
    obtain ⟨fs_name, table_name⟩ := p
    by_cases hscan : scanOk fs_name
    · simp only [polarsRegisterLoop, hscan, if_true, List.filter_cons, List.map_cons]
      rw [ih]
      simp
    · simp only [polarsRegisterLoop, hscan, if_false, List.filter_cons]
      have : (polarsRegisterLoop scanOk st rest).1.context =
          st.context ++ (rest.filter (fun p => scanOk p.1)).map (fun p => (p.2, p.1)) := ih st
      simp only [Bool.false_eq_true, if_false]
      exact this

/-- The registry after the loop, at a key bound to `v` that every
`new_tables` entry for that key rebinds to `v`: still bound to `v`. -/
theorem polarsRegisterLoop_get_inv (scanOk : String → Bool) (st : PolarsImpl)
    (l : List (String × String)) (fs v : String)
    (hbound : Registry.get st.fs_name_to_table_name fs = some v)
    (hsame : ∀ p ∈ l, p.1 = fs → p.2 = v) :
    Registry.get (polarsRegisterLoop scanOk st l).1.fs_name_to_table_name fs = some v := by
  induction l generalizing st with
  | nil => simpa [polarsRegisterLoop]
  | cons p rest ih =>
    obtain ⟨fs_name, table_name⟩ := p
    by_cases hscan : scanOk fs_name
    · simp only [polarsRegisterLoop, hscan, if_true]
      apply ih
      · by_cases hkey : fs_name = fs
        · subst hkey
          have := hsame (fs_name, table_name) (List.mem_cons_self _ _) rfl
          simp only at this
          subst this
          exact Registry.get_insert_self _ _ _
        · rw [Registry.get_insert_ne _ _ _ _ hkey]
          exact hbound
      · intro q hq hqfs
        exact hsame q (List.mem_cons_of_mem _ hq) hqfs
    · simp only [polarsRegisterLoop, hscan, Bool.false_eq_true, if_false]
      exact ih st hbound (fun q hq hqfs => hsame q (List.mem_cons_of_mem _ hq) hqfs)

/-- If `(fs, v)` occurs in `new_tables`, its scan succeeds, and every
entry for `fs` carries the same `v`, the loop leaves `fs` bound to `v`. -/
theorem polarsRegisterLoop_get_mem (scanOk : String → Bool) (st : PolarsImpl)
    (l : List (String × String)) (fs v : String)
    (hscanfs : scanOk fs = true) (hmem : (fs, v) ∈ l)
    (hsame : ∀ p ∈ l, p.1 = fs → p.2 = v) :
    Registry.get (polarsRegisterLoop scanOk st l).1.fs_name_to_table_name fs = some v := by
  induction l generalizing st with
  | nil => simp at hmem
  | cons p rest ih =>
    obtain ⟨fs_name, table_name⟩ := p
    by_cases hkey : fs_name = fs
    · subst hkey
      have hval : table_name = v := hsame (fs_name, table_name) (List.mem_cons_self _ _) rfl
      subst hval
      simp only [polarsRegisterLoop, hscanfs, if_true]
      exact polarsRegisterLoop_get_inv scanOk _ rest fs_name table_name
        (Registry.get_insert_self _ _ _)
        (fun q hq hqfs => hsame q (List.mem_cons_of_mem _ hq) hqfs)
    · have hmem' : (fs, v) ∈ rest := by
        rcases List.mem_cons.mp hmem with h | h
        · exact absurd (congrArg Prod.fst h).symm hkey
        · exact h
      by_cases hscan : scanOk fs_name
      · simp only [polarsRegisterLoop, hscan, if_true]
        exact ih _ hmem' (fun q hq hqfs => hsame q (List.mem_cons_of_mem _ hq) hqfs)
      · simp only [polarsRegisterLoop, hscan, Bool.false_eq_true, if_false]
        exact ih st hmem' (fun q hq hqfs => hsame q (List.mem_cons_of_mem _ hq) hqfs)

/-- A loop over entries that all fail to scan leaves the state untouched
and emits one warning per entry. -/
theorem polarsRegisterLoop_all_fail (scanOk : String → Bool) (st : PolarsImpl)
    (l : List (String × String)) (hfail : ∀ p ∈ l, scanOk p.1 = false) :
    (polarsRegisterLoop scanOk st l).1 = st ∧
      (polarsRegisterLoop scanOk st l).2.length = l.length := by
  induction l generalizing st with
  | nil => simp [polarsRegisterLoop]
  | cons p rest ih =>
    obtain ⟨fs_name, table_name⟩ := p
    have hf : scanOk fs_name = false := hfail (fs_name, table_name) (List.mem_cons_self _ _)
    have ihr := ih st (fun q hq => hfail q (List.mem_cons_of_mem _ hq))
    simp only [polarsRegisterLoop, hf, Bool.false_eq_true, if_false]
    constructor
    · exact ihr.1
    · simp [ihr.2]

/-! ## Helper lemmas: the execute loop -/

/-- A successful loop returns one pair per statement, in statement order,
each carrying the original statement as its first component. -/
theorem executeLoop_ok {σ ε ρ : Type} (step : σ → Statement → σ × Except ε ρ)
    (st : σ) (stmts : List Statement) (st' : σ) (pairs : List (Statement × ρ))
    (h : executeLoop step st stmts = (st', Except.ok pairs)) :
    pairs.map Prod.fst = stmts := by
  induction stmts generalizing st pairs with
  | nil =>
    simp only [executeLoop, Prod.mk.injEq, Except.ok.injEq] at h
    rw [← h.2]
    rfl
  | cons s rest ih =>
    simp only [executeLoop] at h
    rcases hstep : step st s with ⟨st1, r⟩
    rw [hstep] at h
    cases r with
    | error e => simp at h
    | ok stream =>
      simp only at h
      rcases hrec : executeLoop step st1 rest with ⟨st2, r2⟩
      rw [hrec] at h
      cases r2 with
      | error e => simp at h
      | ok l =>
        simp only [Prod.mk.injEq, Except.ok.injEq] at h
        have := ih st1 l (by rw [hrec, h.1])
        rw [← h.2]
        simp [this]

/-- A step failure at statement `s` aborts the remaining statements: the
whole call returns that failure and the state reached by the failing step,
independently of anything after `s`. -/
theorem executeLoop_abort {σ ε ρ : Type} (step : σ → Statement → σ × Except ε ρ)
    (st : σ) (pre : List Statement) (s : Statement) (post : List Statement)
    (stPre : σ) (done : List (Statement × ρ)) (stFail : σ) (e : ε)
    (hpre : executeLoop step st pre = (stPre, Except.ok done))
    (hfail : step stPre s = (stFail, Except.error e)) :
    executeLoop step st (pre ++ s :: post) = (stFail, Except.error e) := by
  induction pre generalizing st done with
  | nil =>
    simp only [executeLoop, Prod.mk.injEq, Except.ok.injEq] at hpre
    rw [← hpre.1] at hfail
    simp [executeLoop, hfail]
  | cons a pre' ih =>
    simp only [executeLoop, List.cons_append] at hpre ⊢
    rcases hstep : step st a with ⟨st1, r⟩
    rw [hstep] at hpre
    cases r with
    | error e' => simp at hpre
    | ok stream =>
      simp only at hpre ⊢
      rcases hrec : executeLoop step st1 pre' with ⟨st2, r2⟩
      rw [hrec] at hpre
      cases r2 with
      | error e' => simp at hpre
      | ok l =>
        simp only [Prod.mk.injEq, Except.ok.injEq] at hpre
        simp only [List.append_eq]
        rw [ih st1 l (by rw [hrec, hpre.1])]

/-- Name derivation as a character map over the final path component. -/
theorem derive_eq_map (fs_name : String) :
    derive_table_from_fs_name fs_name =
      "tbl_" ++ String.mk ((lastSplitComponent '/' fs_name.data).map deriveChar) := by
  unfold derive_table_from_fs_name
  rw [rustReplace_single, rustReplace_single, rustReplace_single,
    List.map_map, List.map_map]
  have hfun : (((fun c => if c = '*' then '_' else c) ∘
      fun c => if c = '-' then '_' else c) ∘
      fun c => if c = '.' then '_' else c) = deriveChar := by
    funext c
    simp only [Function.comp_apply, deriveChar]
    by_cases h1 : c = '.'
    · simp [h1]
    · by_cases h2 : c = '-'
      · simp [h1, h2]
      · by_cases h3 : c = '*'
        · simp [h1, h2, h3]
        · simp [h1, h2, h3]
  rw [hfun]

/-! ## Claims -/

/-- C3 counterexample: the claimed equation
`derive("a/b-c*.parquet") = "tbl_b_c_parquet"` is false: the adjacent `*`
and `.` each contribute their own underscore, giving `"tbl_b_c__parquet"`. -/
theorem claim_C3_counterexample :
    derive_table_from_fs_name "a/b-c*.parquet" = "tbl_b_c__parquet" ∧
      derive_table_from_fs_name "a/b-c*.parquet" ≠ "tbl_b_c_parquet" := by
  constructor
  · decide
  · decide

/-- C3 (amended): logical-table-name derivation is the pure, deterministic
function of the raw identifier string that keeps only the final
`/`-separated path component, replaces each occurrence of `.`, `-`, `*` by
its own `_`, and prefixes `tbl_`; in particular
`derive("data/events.parquet") = "tbl_events_parquet"` and
`derive("a/b-c*.parquet") = "tbl_b_c__parquet"`. -/
theorem claim_C3_derivation_rule :
    (∀ fs_name : String,
      derive_table_from_fs_name fs_name =
        "tbl_" ++ String.mk ((lastSplitComponent '/' fs_name.data).map deriveChar)) ∧
    derive_table_from_fs_name "data/events.parquet" = "tbl_events_parquet" ∧
    derive_table_from_fs_name "a/b-c*.parquet" = "tbl_b_c__parquet" := by
  refine ⟨derive_eq_map, by decide, by decide⟩

/-- C10: for every relation reference, the rewriter uses only part 0 of
the (possibly compound) object name: the remaining components come back
untouched, both the rewritten reference and the pushed registration
request are determined by the registry and part 0's value alone, and the
statement-level rewrite is exactly this per-reference action applied to
each relation atom in visit order. -/
theorem claim_C10_part0_only :
    (∀ (registry : Registry) (t : ObjectName),
      ((rewriteRelation registry t).1).restParts = t.restParts) ∧
    (∀ (registry : Registry) (v : String) (r1 r2 : List Ident),
      ((rewriteRelation registry ⟨⟨v⟩, r1⟩).1).part0 =
        ((rewriteRelation registry ⟨⟨v⟩, r2⟩).1).part0 ∧
      (rewriteRelation registry ⟨⟨v⟩, r1⟩).2 =
        (rewriteRelation registry ⟨⟨v⟩, r2⟩).2) ∧
    (∀ (registry : Registry) (stmt : Statement),
      (visit_relations registry stmt).1 = stmt.map (rewriteAtom registry)) := by
  refine ⟨rewriteRelation_restParts, ?_, visit_relations_fst⟩
  intro registry v r1 r2
  constructor <;>
    (cases hget : Registry.get registry v <;> simp [rewriteRelation, hget])

/-- C5: a parse failure surfaces before any statement is rewritten,
registered or executed — for each engine variant, `execute` on a query
the parser rejects returns that parse error with the adapter state
(registry and engine catalog/session) exactly as it was. -/
theorem claim_C5_parse_error_no_side_effects :
    (∀ (parse : String → Except String (List Statement)) scanOk runSql cs
        (st : PolarsImpl) (query : String) (e : String),
        parse query = Except.error e →
        PolarsImpl.execute parse scanOk runSql cs st query = (st, Except.error e)) ∧
    (∀ (parse : String → Except DuckFailure (List Statement)) ddlOk runQuery
        (st : DuckDbImpl) (query : String) (e : DuckFailure),
        parse query = Except.error e →
        DuckDbImpl.execute parse ddlOk runQuery st query = (st, Except.error e)) ∧
    (∀ (parse : String → Except String (List Statement)) regOk runSql
        (st : DataFusionImpl) (query : String) (e : String),
        parse query = Except.error e →
        DataFusionImpl.execute parse regOk runSql st query = (st, Except.error e)) := by
  refine ⟨?_, ?_, ?_⟩
  · intro parse scanOk runSql cs st query e hparse
    simp [PolarsImpl.execute, engineExecute, hparse]
  · intro parse ddlOk runQuery st query e hparse
    simp [DuckDbImpl.execute, engineExecute, hparse]
  · intro parse regOk runSql st query e hparse
    simp [DataFusionImpl.execute, engineExecute, hparse]

/-- C5 witness: a concrete parse failure on a concrete adapter state
returns the parse error with the state (registry and context) untouched. -/
theorem claim_C5_witness :
    (fun _ : String => (Except.error "parse error" : Except String (List Statement)))
        "SELEC 1" = Except.error "parse error" ∧
    PolarsImpl.execute (fun _ => Except.error "parse error") (fun _ => true)
        (fun _ _ => Except.ok ⟨[], []⟩) (fun s => Except.ok s)
        ⟨[("t.parquet", "tbl_t_parquet")], [("tbl_t_parquet", "t.parquet")]⟩ "SELEC 1" =
      (⟨[("t.parquet", "tbl_t_parquet")], [("tbl_t_parquet", "t.parquet")]⟩,
        Except.error "parse error") :=
  ⟨rfl, claim_C5_parse_error_no_side_effects.1 _ _ _ _ _ _ _ rfl⟩

/-- C4: for every query text parsing into N statements, a successful
`execute` of any engine variant returns exactly N pairs, in the order the
statements appeared, each pair carrying the original pre-rewrite
statement as its first component. -/
theorem claim_C4_order_and_originals :
    (∀ (parse : String → Except String (List Statement)) scanOk runSql cs
        (st st' : PolarsImpl) (query : String) (stmts : List Statement)
        (pairs : List (Statement × StreamFromPolars)),
        parse query = Except.ok stmts →
        PolarsImpl.execute parse scanOk runSql cs st query = (st', Except.ok pairs) →
        pairs.map Prod.fst = stmts ∧ pairs.length = stmts.length) ∧
    (∀ (parse : String → Except DuckFailure (List Statement)) ddlOk runQuery
        (st st' : DuckDbImpl) (query : String) (stmts : List Statement)
        (pairs : List (Statement × MemoryStream)),
        parse query = Except.ok stmts →
        DuckDbImpl.execute parse ddlOk runQuery st query = (st', Except.ok pairs) →
        pairs.map Prod.fst = stmts ∧ pairs.length = stmts.length) ∧
    (∀ (parse : String → Except String (List Statement)) regOk runSql
        (st st' : DataFusionImpl) (query : String) (stmts : List Statement)
        (pairs : List (Statement × DFStream)),
        parse query = Except.ok stmts →
        DataFusionImpl.execute parse regOk runSql st query = (st', Except.ok pairs) →
        pairs.map Prod.fst = stmts ∧ pairs.length = stmts.length) := by
  refine ⟨?_, ?_, ?_⟩
  · intro parse scanOk runSql cs st st' query stmts pairs hparse hexec
    have hloop : executeLoop (polarsStep scanOk runSql cs) st stmts =
        (st', Except.ok pairs) := by
      simpa [PolarsImpl.execute, engineExecute, hparse] using hexec
    have hmap := executeLoop_ok _ _ _ _ _ hloop
    exact ⟨hmap, by rw [← hmap]; simp⟩
  · intro parse ddlOk runQuery st st' query stmts pairs hparse hexec
    have hloop : executeLoop (duckStep ddlOk runQuery) st stmts =
        (st', Except.ok pairs) := by
      simpa [DuckDbImpl.execute, engineExecute, hparse] using hexec
    have hmap := executeLoop_ok _ _ _ _ _ hloop
    exact ⟨hmap, by rw [← hmap]; simp⟩
  · intro parse regOk runSql st st' query stmts pairs hparse hexec
    have hloop : executeLoop (dfStep regOk runSql) st stmts =
        (st', Except.ok pairs) := by
      simpa [DataFusionImpl.execute, engineExecute, hparse] using hexec
    have hmap := executeLoop_ok _ _ _ _ _ hloop
    exact ⟨hmap, by rw [← hmap]; simp⟩

/-- C4 witness: a two-statement query returns its two original statements
in order. -/
theorem claim_C4_witness :
    ([([SqlAtom.text "SELECT 1"], (⟨[], ["x"]⟩ : StreamFromPolars)),
        ([SqlAtom.text "SELECT 2"], ⟨[], ["x"]⟩)].map Prod.fst =
      [[SqlAtom.text "SELECT 1"], [SqlAtom.text "SELECT 2"]]) ∧
    ([([SqlAtom.text "SELECT 1"], (⟨[], ["x"]⟩ : StreamFromPolars)),
        ([SqlAtom.text "SELECT 2"], ⟨[], ["x"]⟩)].length =
      [[SqlAtom.text "SELECT 1"], [SqlAtom.text "SELECT 2"]].length) :=
  claim_C4_order_and_originals.1
    (fun _ => Except.ok [[SqlAtom.text "SELECT 1"], [SqlAtom.text "SELECT 2"]])
    (fun _ => true) (fun _ _ => Except.ok ⟨["x"], []⟩) (fun s => Except.ok s)
    PolarsImpl.default PolarsImpl.default "SELECT 1; SELECT 2"
    [[SqlAtom.text "SELECT 1"], [SqlAtom.text "SELECT 2"]]
    [([SqlAtom.text "SELECT 1"], ⟨[], ["x"]⟩), ([SqlAtom.text "SELECT 2"], ⟨[], ["x"]⟩)]
    rfl rfl

/-- C6: a failure at statement k aborts the remaining statements of the
call: `execute` returns that statement's error together with the state
reached at the failure (registrations committed up to there persist, and
that state is what the next call starts from), and the result is
independent of every statement after k. -/
theorem claim_C6_failure_aborts_rest :
    (∀ (parse : String → Except String (List Statement)) scanOk runSql cs
        (st stPre stFail : PolarsImpl) (query : String)
        (pre post : List Statement) (s : Statement)
        (done : List (Statement × StreamFromPolars)) (e : String),
        parse query = Except.ok (pre ++ s :: post) →
        executeLoop (polarsStep scanOk runSql cs) st pre = (stPre, Except.ok done) →
        polarsStep scanOk runSql cs stPre s = (stFail, Except.error e) →
        PolarsImpl.execute parse scanOk runSql cs st query = (stFail, Except.error e)) ∧
    (∀ (parse : String → Except DuckFailure (List Statement)) ddlOk runQuery
        (st stPre stFail : DuckDbImpl) (query : String)
        (pre post : List Statement) (s : Statement)
        (done : List (Statement × MemoryStream)) (e : DuckFailure),
        parse query = Except.ok (pre ++ s :: post) →
        executeLoop (duckStep ddlOk runQuery) st pre = (stPre, Except.ok done) →
        duckStep ddlOk runQuery stPre s = (stFail, Except.error e) →
        DuckDbImpl.execute parse ddlOk runQuery st query = (stFail, Except.error e)) ∧
    (∀ (parse : String → Except String (List Statement)) regOk runSql
        (st stPre stFail : DataFusionImpl) (query : String)
        (pre post : List Statement) (s : Statement)
        (done : List (Statement × DFStream)) (e : String),
        parse query = Except.ok (pre ++ s :: post) →
        executeLoop (dfStep regOk runSql) st pre = (stPre, Except.ok done) →
        dfStep regOk runSql stPre s = (stFail, Except.error e) →
        DataFusionImpl.execute parse regOk runSql st query = (stFail, Except.error e)) := by
  refine ⟨?_, ?_, ?_⟩
  · intro parse scanOk runSql cs st stPre stFail query pre post s done e hparse hpre hfail
    simp only [PolarsImpl.execute, engineExecute, hparse]
    exact executeLoop_abort _ _ _ _ _ _ _ _ _ hpre hfail
  · intro parse ddlOk runQuery st stPre stFail query pre post s done e hparse hpre hfail
    simp only [DuckDbImpl.execute, engineExecute, hparse]
    exact executeLoop_abort _ _ _ _ _ _ _ _ _ hpre hfail
  · intro parse regOk runSql st stPre stFail query pre post s done e hparse hpre hfail
    simp only [DataFusionImpl.execute, engineExecute, hparse]
    exact executeLoop_abort _ _ _ _ _ _ _ _ _ hpre hfail

/-- C6 witness: with a concrete second statement failing, the concrete
three-statement call returns that failure and never touches the third. -/
theorem claim_C6_witness :
    ((fun _ : String => (Except.ok [[SqlAtom.text "SELECT 1"], [SqlAtom.text "BAD"],
        [SqlAtom.text "AFTER"]] : Except String (List Statement))) "q" =
      Except.ok ([[SqlAtom.text "SELECT 1"]] ++ [SqlAtom.text "BAD"] :: [[SqlAtom.text "AFTER"]])) ∧
    (executeLoop (polarsStep (fun _ => true)
        (fun _ stmt => if stmt = [SqlAtom.text "BAD"] then Except.error "bad statement"
          else Except.ok ⟨["x"], []⟩) (fun s => Except.ok s))
        PolarsImpl.default [[SqlAtom.text "SELECT 1"]] =
      (PolarsImpl.default, Except.ok [([SqlAtom.text "SELECT 1"], ⟨[], ["x"]⟩)])) ∧
    (PolarsImpl.execute
        (fun _ => Except.ok [[SqlAtom.text "SELECT 1"], [SqlAtom.text "BAD"],
          [SqlAtom.text "AFTER"]])
        (fun _ => true)
        (fun _ stmt => if stmt = [SqlAtom.text "BAD"] then Except.error "bad statement"
          else Except.ok ⟨["x"], []⟩)
        (fun s => Except.ok s) PolarsImpl.default "q" =
      (PolarsImpl.default, Except.error "bad statement")) :=
  ⟨rfl, rfl,
    claim_C6_failure_aborts_rest.1
      (fun _ => Except.ok [[SqlAtom.text "SELECT 1"], [SqlAtom.text "BAD"],
        [SqlAtom.text "AFTER"]])
      (fun _ => true)
      (fun _ stmt => if stmt = [SqlAtom.text "BAD"] then Except.error "bad statement"
        else Except.ok ⟨["x"], []⟩)
      (fun s => Except.ok s)
      PolarsImpl.default PolarsImpl.default PolarsImpl.default "q"
      [[SqlAtom.text "SELECT 1"]] [[SqlAtom.text "AFTER"]] [SqlAtom.text "BAD"]
      [([SqlAtom.text "SELECT 1"], ⟨[], ["x"]⟩)] "bad statement"
      rfl rfl rfl⟩

/-- C8: in the Polars (foreign-frame) and DuckDB (synchronous-batch)
adapters, the schema of a successful statement result is computed eagerly
from the fully materialized result (the collected frame's converted
schema, resp. the first collected batch's schema) before the stream
wrapper exists, and both wrappers' `schema` accessors return the stored
field as-is — synchronously, regardless of the batch content. -/
theorem claim_C8_eager_schema :
    (∀ scanOk runSql cs (st st' : PolarsImpl) (statement : Statement)
        (w : StreamFromPolars),
        polarsStep scanOk runSql cs st statement = (st', Except.ok w) →
        ∃ df : DataFrame,
          runSql st'.context ((st.load_tables scanOk statement).1) = Except.ok df ∧
          cs df.arrowSchema = Except.ok w.schema ∧
          w.stream = df.batches) ∧
    (∀ (batches : List RecordBatch) (schema : Schema),
        (StreamFromPolars.mk batches schema).schema = schema) ∧
    (∀ ddlOk runQuery (st st' : DuckDbImpl) (statement : Statement)
        (m : MemoryStream),
        duckStep ddlOk runQuery st statement = (st', Except.ok m) →
        ∃ (transformed : Statement) (b : RecordBatch) (rest : List RecordBatch),
          st.load_tables ddlOk statement = (Except.ok transformed, st') ∧
          runQuery st'.connection transformed = Except.ok (b :: rest) ∧
          m.schema = b.schema ∧ m.batches = b :: rest) ∧
    (∀ (batches : List RecordBatch) (schema : Schema),
        (MemoryStream.mk batches schema).schema = schema) := by
  refine ⟨?_, fun _ _ => rfl, ?_, fun _ _ => rfl⟩
  · intro scanOk runSql cs st st' statement w hstep
    rcases hload : st.load_tables scanOk statement with ⟨transformed, st1, warns⟩
    simp only [polarsStep, hload] at hstep
    rcases hrun : runSql st1.context transformed with e | df
    · rw [hrun] at hstep; simp at hstep
    · rw [hrun] at hstep
      simp only at hstep
      rcases hcs : cs df.arrowSchema with e | schema
      · rw [hcs] at hstep; simp at hstep
      · rw [hcs] at hstep
        simp only [Prod.mk.injEq, Except.ok.injEq] at hstep
        refine ⟨df, ?_, ?_, ?_⟩
        · rw [← hstep.1]
          exact hrun
        · rw [hcs, ← hstep.2]
        · rw [← hstep.2]
  · intro ddlOk runQuery st st' statement m hstep
    rcases hload : st.load_tables ddlOk statement with ⟨r, st1⟩
    cases r with
    | error e =>
      simp only [duckStep, hload] at hstep
      simp at hstep
    | ok transformed =>
      simp only [duckStep, hload] at hstep
      rcases hrun : runQuery st1.connection transformed with e | res
      · rw [hrun] at hstep; simp at hstep
      · rw [hrun] at hstep
        cases res with
        | nil => simp at hstep
        | cons b rest =>
          simp only [Prod.mk.injEq, Except.ok.injEq] at hstep
          exact ⟨transformed, b, rest,
            by rw [hstep.1],
            by rw [← hstep.1]; exact hrun,
            by rw [← hstep.2],
            by rw [← hstep.2]⟩

/-- C9: the DuckDB adapter obtains the stream schema by indexing the
first collected batch (`res[0]`), so a statement whose execution yields
zero batches makes the step fail with the out-of-bounds panic instead of
returning an empty stream; conversely every successfully returned
`MemoryStream` holds at least one batch. -/
theorem claim_C9_duck_requires_batch :
    (∀ ddlOk runQuery (st st' : DuckDbImpl) (statement transformed : Statement),
        st.load_tables ddlOk statement = (Except.ok transformed, st') →
        runQuery st'.connection transformed = Except.ok [] →
        duckStep ddlOk runQuery st statement =
          (st', Except.error DuckFailure.panicIndexOutOfBounds)) ∧
    (∀ ddlOk runQuery (st st' : DuckDbImpl) (statement : Statement) (m : MemoryStream),
        duckStep ddlOk runQuery st statement = (st', Except.ok m) →
        m.batches ≠ []) := by
  constructor
  · intro ddlOk runQuery st st' statement transformed hload hrun
    simp [duckStep, hload, hrun]
  · intro ddlOk runQuery st st' statement m hstep
    rcases hload : st.load_tables ddlOk statement with ⟨r, st1⟩
    cases r with
    | error e => simp [duckStep, hload] at hstep
    | ok transformed =>
      simp only [duckStep, hload] at hstep
      rcases hrun : runQuery st1.connection transformed with e | res
      · rw [hrun] at hstep; simp at hstep
      · rw [hrun] at hstep
        cases res with
        | nil => simp at hstep
        | cons b rest =>
          simp only [Prod.mk.injEq, Except.ok.injEq] at hstep
          rw [← hstep.2]
          simp

/-- C9 witness: a concrete statement whose engine execution returns zero
batches makes the DuckDB step fail with the out-of-bounds panic. -/
theorem claim_C9_witness :
    (DuckDbImpl.default.load_tables (fun _ _ => true) [SqlAtom.text "CREATE TABLE t (x INT)"] =
      (Except.ok [SqlAtom.text "CREATE TABLE t (x INT)"], DuckDbImpl.default)) ∧
    ((fun (_ : List (String × String)) (_ : Statement) =>
        (Except.ok [] : Except String (List RecordBatch)))
      DuckDbImpl.default.connection [SqlAtom.text "CREATE TABLE t (x INT)"] = Except.ok []) ∧
    (duckStep (fun _ _ => true) (fun _ _ => Except.ok [])
        DuckDbImpl.default [SqlAtom.text "CREATE TABLE t (x INT)"] =
      (DuckDbImpl.default, Except.error DuckFailure.panicIndexOutOfBounds)) :=
  ⟨rfl, rfl,
    claim_C9_duck_requires_batch.1 (fun _ _ => true) (fun _ _ => Except.ok [])
      DuckDbImpl.default DuckDbImpl.default [SqlAtom.text "CREATE TABLE t (x INT)"]
      [SqlAtom.text "CREATE TABLE t (x INT)"] rfl rfl⟩

/-- C8 witness: a concrete successful Polars step stores the converted
schema of the materialized frame inside the stream wrapper. -/
theorem claim_C8_witness :
    (polarsStep (fun _ => true)
        (fun _ _ => Except.ok ⟨["a", "b"], [⟨["a", "b"], 2⟩]⟩)
        (fun s => Except.ok s) PolarsImpl.default [SqlAtom.text "SELECT 1"] =
      (PolarsImpl.default, Except.ok ⟨[⟨["a", "b"], 2⟩], ["a", "b"]⟩)) ∧
    (∃ df : DataFrame,
      (fun (_ : List (String × String)) (_ : Statement) =>
          (Except.ok (⟨["a", "b"], [⟨["a", "b"], 2⟩]⟩ : DataFrame) :
            Except String DataFrame))
        PolarsImpl.default.context
        ((PolarsImpl.default.load_tables (fun _ => true) [SqlAtom.text "SELECT 1"]).1) =
        Except.ok df ∧
      (fun s => (Except.ok s : Except String Schema)) df.arrowSchema =
        Except.ok (⟨[⟨["a", "b"], 2⟩], ["a", "b"]⟩ : StreamFromPolars).schema ∧
      (⟨[⟨["a", "b"], 2⟩], ["a", "b"]⟩ : StreamFromPolars).stream = df.batches) :=
  ⟨rfl, claim_C8_eager_schema.1 (fun _ => true)
    (fun _ _ => Except.ok ⟨["a", "b"], [⟨["a", "b"], 2⟩]⟩) (fun s => Except.ok s)
    PolarsImpl.default PolarsImpl.default [SqlAtom.text "SELECT 1"]
    ⟨[⟨["a", "b"], 2⟩], ["a", "b"]⟩ rfl⟩

/-- `PolarsImpl.load_tables` unfolded to its two phases. -/
theorem PolarsImpl.load_tables_eq (scanOk : String → Bool) (st : PolarsImpl)
    (stmt : Statement) :
    st.load_tables scanOk stmt =
      ((visit_relations st.fs_name_to_table_name stmt).1,
       (polarsRegisterLoop scanOk st (visit_relations st.fs_name_to_table_name stmt).2).1,
       (polarsRegisterLoop scanOk st (visit_relations st.fs_name_to_table_name stmt).2).2) :=
  rfl

/-- C1 counterexample: one query referencing `./t.parquet` twice (as in a
self-join) triggers registration with the underlying engine twice for
that one identifier — the registration event list of the Polars context
has two entries after a single `load_tables` pass, not one. -/
theorem claim_C1_counterexample :
    ((PolarsImpl.default.load_tables (fun _ => true)
        [SqlAtom.rel ⟨⟨"./t.parquet"⟩, []⟩, SqlAtom.rel ⟨⟨"./t.parquet"⟩, []⟩]).2.1.context =
      [("tbl_t_parquet", "./t.parquet"), ("tbl_t_parquet", "./t.parquet")]) ∧
    ((PolarsImpl.default.load_tables (fun _ => true)
        [SqlAtom.rel ⟨⟨"./t.parquet"⟩, []⟩,
          SqlAtom.rel ⟨⟨"./t.parquet"⟩, []⟩]).2.1.context.length ≠ 1) := by
  constructor
  · decide
  · decide

/-- C1 (amended): resolving equal identifier strings always yields the
identical derived logical name, an identifier already cached in the
registry triggers no further registration with the underlying engine, and
a successful registration caches the derived name for later statements
and calls — but exactly-once registration holds only across statements:
within one statement, each occurrence of a not-yet-cached identifier
pushes its own registration. -/
theorem claim_C1_idempotent_resolution :
    (∀ (registry : Registry) (v : String) (r1 r2 : List Ident),
      ((rewriteRelation registry ⟨⟨v⟩, r1⟩).1).part0.value =
        ((rewriteRelation registry ⟨⟨v⟩, r2⟩).1).part0.value) ∧
    (∀ (scanOk : String → Bool) (st : PolarsImpl) (stmt : Statement) (fs t : String),
      Registry.get st.fs_name_to_table_name fs = some t →
      ((st.load_tables scanOk stmt).2.1.context.filter (fun e => e.2 = fs)) =
        st.context.filter (fun e => e.2 = fs)) ∧
    (∀ (scanOk : String → Bool) (st : PolarsImpl) (stmt : Statement) (t : ObjectName),
      SqlAtom.rel t ∈ stmt →
      Registry.get st.fs_name_to_table_name t.part0.value = none →
      scanOk t.part0.value = true →
      Registry.get (st.load_tables scanOk stmt).2.1.fs_name_to_table_name t.part0.value =
        some (derive_table_from_fs_name t.part0.value)) := by
  refine ⟨?_, ?_, ?_⟩
  · intro registry v r1 r2
    cases hget : Registry.get registry v <;> simp [rewriteRelation, hget]
  · intro scanOk st stmt fs t hget
    rw [PolarsImpl.load_tables_eq]
    simp only
    rw [polarsRegisterLoop_context, List.filter_append]
    have hnil :
        (((visit_relations st.fs_name_to_table_name stmt).2.filter
            (fun p => scanOk p.1)).map (fun p => (p.2, p.1))).filter
          (fun e => e.2 = fs) = [] := by
      rw [List.filter_eq_nil_iff]
      intro e he
      rcases List.mem_map.mp he with ⟨p, hp, rfl⟩
      have hp' := visit_relations_new_tables_spec st.fs_name_to_table_name stmt
        p (List.mem_of_mem_filter hp)
      intro hefs
      simp only [decide_eq_true_eq] at hefs
      rw [hefs] at hp'
      rw [hp'.1] at hget
      exact Option.noConfusion hget
    rw [hnil, List.append_nil]
  · intro scanOk st stmt t hmem hmiss hscan
    rw [PolarsImpl.load_tables_eq]
    simp only
    apply polarsRegisterLoop_get_mem _ _ _ _ _ hscan
    · exact visit_relations_mem_new_tables _ _ _ hmem hmiss
    · intro p hp hpfs
      have := (visit_relations_new_tables_spec st.fs_name_to_table_name stmt p hp).2
      rw [this, hpfs]

/-- C1 witness: after one statement first references
`data/events.parquet` with a succeeding scan, the registry caches its
derived name for all later passes. -/
theorem claim_C1_witness :
    (SqlAtom.rel ⟨⟨"data/events.parquet"⟩, []⟩ ∈
      [SqlAtom.rel ⟨⟨"data/events.parquet"⟩, []⟩]) ∧
    (Registry.get PolarsImpl.default.fs_name_to_table_name "data/events.parquet" = none) ∧
    ((fun _ : String => true) "data/events.parquet" = true) ∧
    (Registry.get
        (PolarsImpl.default.load_tables (fun _ => true)
          [SqlAtom.rel ⟨⟨"data/events.parquet"⟩, []⟩]).2.1.fs_name_to_table_name
        "data/events.parquet" = some (derive_table_from_fs_name "data/events.parquet")) :=
  ⟨List.mem_cons_self _ _, rfl, rfl,
    claim_C1_idempotent_resolution.2.2 (fun _ => true) PolarsImpl.default
      [SqlAtom.rel ⟨⟨"data/events.parquet"⟩, []⟩] ⟨⟨"data/events.parquet"⟩, []⟩
      (List.mem_cons_self _ _) rfl rfl⟩

/-- C2 counterexample: when registration of `missing.parquet` fails, the
Polars rewriter does NOT leave the reference unrewritten — the rewritten
statement carries the derived name `tbl_missing_parquet` instead of the
literal `missing.parquet` — and the DuckDB variant does not recover with
a warning at all: its `load_tables` aborts with an error. -/
theorem claim_C2_counterexample :
    ((PolarsImpl.default.load_tables (fun _ => false)
        [SqlAtom.rel ⟨⟨"missing.parquet"⟩, []⟩]).1 =
      [SqlAtom.rel ⟨⟨"tbl_missing_parquet"⟩, []⟩]) ∧
    ((PolarsImpl.default.load_tables (fun _ => false)
        [SqlAtom.rel ⟨⟨"missing.parquet"⟩, []⟩]).1 ≠
      [SqlAtom.rel ⟨⟨"missing.parquet"⟩, []⟩]) ∧
    ((DuckDbImpl.default.load_tables (fun _ _ => false)
        [SqlAtom.rel ⟨⟨"missing.parquet"⟩, []⟩]).1 =
      Except.error ("CREATE TABLE for " ++ "missing.parquet" ++ " failed")) := by
  refine ⟨by decide, by decide, rfl⟩

/-- C2 (amended): the rewriter substitutes derived names before and
independently of registration outcomes, so a failed registration leaves
the reference rewritten to its derived — and never registered — name
rather than to the original literal; in the Polars and DataFusion
variants the failure is non-fatal (a warning per failed entry, no state
change), while in the DuckDB variant a registration failure aborts
`load_tables` with an error at rewrite time. -/
theorem claim_C2_failure_policy :
    (∀ (scanOk : String → Bool) (st : PolarsImpl) (stmt : Statement),
      (st.load_tables scanOk stmt).1 =
        (visit_relations st.fs_name_to_table_name stmt).1) ∧
    (∀ (regOk : String → String → Bool) (st : DataFusionImpl) (stmt : Statement),
      (st.load_tables regOk stmt).1 =
        (visit_relations st.fs_name_to_table_name stmt).1) ∧
    (∀ (scanOk : String → Bool) (st : PolarsImpl) (stmt : Statement),
      (∀ p ∈ (visit_relations st.fs_name_to_table_name stmt).2, scanOk p.1 = false) →
      (st.load_tables scanOk stmt).2.1 = st ∧
      (st.load_tables scanOk stmt).2.2.length =
        (visit_relations st.fs_name_to_table_name stmt).2.length) ∧
    (∀ (st : PolarsImpl) (t : ObjectName),
      Registry.get st.fs_name_to_table_name t.part0.value = none →
      t.part0.value ≠ "" →
      ((rewriteRelation st.fs_name_to_table_name t).1).part0.value =
        derive_table_from_fs_name t.part0.value) ∧
    (∀ (ddlOk : List (String × String) → String × String → Bool) (st : DuckDbImpl)
        (stmt : Statement) (fs tbl : String) (rest : List (String × String)),
      (visit_relations st.fs_name_to_table_name stmt).2 = (fs, tbl) :: rest →
      ddlOk st.connection (tbl, fs) = false →
      (st.load_tables ddlOk stmt).1 =
        Except.error ("CREATE TABLE for " ++ fs ++ " failed")) := by
  refine ⟨fun _ _ _ => rfl, fun _ _ _ => rfl, ?_, ?_, ?_⟩
  · intro scanOk st stmt hfail
    rw [PolarsImpl.load_tables_eq]
    simp only
    exact polarsRegisterLoop_all_fail scanOk st _ hfail
  · intro st t hmiss hne
    rw [rewriteRelation_part0_value_nonempty _ _ hne, hmiss]
    rfl
  · intro ddlOk st stmt fs tbl rest hvis hddl
    simp [DuckDbImpl.load_tables, hvis, duckRegisterLoop, hddl]

/-- C2 witness: a concrete DuckDB registration failure aborts the
concrete `load_tables` call with the DDL error. -/
theorem claim_C2_witness :
    ((visit_relations DuckDbImpl.default.fs_name_to_table_name
        [SqlAtom.rel ⟨⟨"missing.parquet"⟩, []⟩]).2 =
      ("missing.parquet", "tbl_missing_parquet") :: []) ∧
    ((fun (_ : List (String × String)) (_ : String × String) => false)
        DuckDbImpl.default.connection ("tbl_missing_parquet", "missing.parquet") = false) ∧
    ((DuckDbImpl.default.load_tables (fun _ _ => false)
        [SqlAtom.rel ⟨⟨"missing.parquet"⟩, []⟩]).1 =
      Except.error ("CREATE TABLE for " ++ "missing.parquet" ++ " failed")) :=
  ⟨by decide, rfl,
    claim_C2_failure_policy.2.2.2.2 (fun _ _ => false) DuckDbImpl.default
      [SqlAtom.rel ⟨⟨"missing.parquet"⟩, []⟩] "missing.parquet" "tbl_missing_parquet" []
      (by decide) rfl⟩

/-- C7 counterexample: the identifier `a b.parquet` (a legal quoted
relation reference) derives to `tbl_a b_parquet`, which contains a space
and therefore is not a syntactically valid unquoted SQL identifier. -/
theorem claim_C7_counterexample :
    derive_table_from_fs_name "a b.parquet" = "tbl_a b_parquet" ∧
    isValidUnquotedIdent (derive_table_from_fs_name "a b.parquet") = false := by
  constructor
  · decide
  · decide

/-- C7 (amended): for every filesystem identifier whose characters are
alphanumeric or among `. - * _ /` — the shapes the derivation is designed
for — the derived logical name is a syntactically valid unquoted SQL
identifier; identifiers with other characters (e.g. spaces) can yield
invalid names. -/
theorem claim_C7_valid_ident (fs_name : String)
    (h : ∀ c ∈ fs_name.data, c.isAlphanum = true ∨ c ∈ ['.', '-', '*', '_', '/']) :
    isValidUnquotedIdent (derive_table_from_fs_name fs_name) = true := by
  rw [derive_eq_map]
  show ((('t' : Char).isAlpha || 't' = '_') &&
      (('b' : Char) :: 'l' :: '_' :: (lastSplitComponent '/' fs_name.data).map deriveChar).all
        (fun c => c.isAlphanum || c = '_')) = true
  simp only [List.all_cons, Bool.and_eq_true, Bool.or_eq_true]
  refine ⟨Or.inl (by decide), Or.inl (by decide), Or.inl (by decide), Or.inr (by decide), ?_⟩
  rw [List.all_eq_true]
  intro x hx
  rcases List.mem_map.mp hx with ⟨c, hc, rfl⟩
  have hmem := splitChar_chars '/' fs_name.data _
    (lastSplitComponent_mem '/' fs_name.data) c hc
  by_cases hrepl : c = '.' ∨ c = '-' ∨ c = '*'
  · simp [deriveChar, hrepl]
  · have hkeep : deriveChar c = c := by simp [deriveChar, hrepl]
    rw [hkeep]
    rcases h c hmem.1 with halnum | hspec
    · simp [halnum]
    · simp only [List.mem_cons, List.not_mem_nil, or_false] at hspec
      rcases hspec with h1 | h1 | h1 | h1 | h1
      · exact absurd (Or.inl h1) hrepl
      · exact absurd (Or.inr (Or.inl h1)) hrepl
      · exact absurd (Or.inr (Or.inr h1)) hrepl
      · simp [h1]
      · exact absurd h1 hmem.2

/-- C7 witness: `data/events.parquet` satisfies the character restriction
and its derived name `tbl_events_parquet` is a valid unquoted identifier. -/
theorem claim_C7_witness :
    (∀ c ∈ ("data/events.parquet" : String).data,
      c.isAlphanum = true ∨ c ∈ ['.', '-', '*', '_', '/']) ∧
    isValidUnquotedIdent (derive_table_from_fs_name "data/events.parquet") = true :=
  ⟨by decide, claim_C7_valid_ident "data/events.parquet" (by decide)⟩

end Callisto
